import Mathlib

/-!
# Verification of the ocrpdf page-layout and layer-compositing engine

Shallow embedding of the core of `johnsto/ocrpdf` (the final revision of the
repository: `document.go` holding `Document.GetPageConfiguration`,
`Document.AddWords`, `Document.AddImageLayer` and `Document.AddPage`,
`image.go` holding `Image.Reader` / `Image.FormatString`, `tesseract.go`
holding `Word`, and `goscan2pdf/main.go` holding the page loop).

Go `float64` values are modelled as rationals (`ℚ`), Go `int`/`int32` as `ℤ`.
Calls into the gofpdf document writer are modelled as a trace of events, so
that layer-ordering properties can be stated about the sequence of composite
operations a page emits.
-/

namespace Ocrpdf

/-- Page orientation setting (`document.go`, type `Orientation`):
`auto`, `portrait` or `landscape`. -/
inductive Orient where
  | auto
  | portrait
  | landscape
deriving DecidableEq, Repr

/-- Text scaling policy (`document.go`, type `TextScaling`): the constants
`NoTextScaling` ("off"), `ContainTextScaling` ("contain") and
`MatchTextScaling` ("match"). -/
inductive TextScaling where
  | NoTextScaling
  | ContainTextScaling
  | MatchTextScaling
deriving DecidableEq, Repr

/-- One OCR-recognised word (`tesseract.go`, struct `Word`). -/
structure Word where
  Text : String
  Left : ℤ
  Right : ℤ
  Top : ℤ
  Bottom : ℤ
  Width : ℤ
  Height : ℤ
deriving DecidableEq, Repr

/-- First stage of `Document.GetPageConfiguration` (document.go): resolve the
orientation, swapping the base page box `(pw, ph)` when `auto` resolves to
landscape (`iw > ih`). -/
def orientPage (d : Orient) (pw ph iw ih : ℚ) : ℚ × ℚ × Orient :=
  if d = Orient.auto then
    if iw > ih then (ph, pw, Orient.landscape)
    else (pw, ph, Orient.portrait)
  else (pw, ph, d)

/-- Second stage of `Document.GetPageConfiguration` (document.go): shrink
exactly one axis of the (possibly swapped) page box so the image fits:
`if iw*h < ih*w { w = h*iw/ih } else { h = w*ih/iw }`. -/
def fitPage (w h iw ih : ℚ) : ℚ × ℚ :=
  if iw * h < ih * w then (h * iw / ih, h) else (w, w * ih / iw)

/-- `Document.GetPageConfiguration` (document.go): page size and orientation
suitable to contain an image of pixel dimensions `(iw, ih)` on a base page
box `(pw, ph)`. -/
def GetPageConfiguration (d : Orient) (pw ph iw ih : ℚ) : ℚ × ℚ × Orient :=
  let s := orientPage d pw ph iw ih
  let f := fitPage s.1 s.2.1 iw ih
  (f.1, f.2, s.2.2)

/-- The pixel→page scale factor pair `mx, my := w/float64(iw), h/float64(ih)`
computed in `Document.AddPage` (document.go). -/
def pageScale (w h iw ih : ℚ) : ℚ × ℚ := (w / iw, h / ih)

/-- Page-space box of a word: its pixel coordinates multiplied by the scale
factors `(mx, my)` (ocrpdf.go, `Document.AddPage`:
`x := Left*mx; y := Top*my; w := Width*mx; h := Height*my`). -/
def wordPageBox (word : Word) (mx my : ℚ) : ℚ × ℚ × ℚ × ℚ :=
  ((word.Left : ℚ) * mx, (word.Top : ℚ) * my,
    (word.Width : ℚ) * mx, (word.Height : ℚ) * my)

/-! ## Helper lemmas about the geometry resolver -/

/-- Both components of the (possibly swapped) base page box are positive when
the base page box is. -/
theorem orientPage_pos (d : Orient) (pw ph iw ih : ℚ)
    (hpw : 0 < pw) (hph : 0 < ph) :
    0 < (orientPage d pw ph iw ih).1 ∧ 0 < (orientPage d pw ph iw ih).2.1 := by
  unfold orientPage
  split_ifs <;> exact ⟨by assumption, by assumption⟩

/-- The fit stage preserves the image aspect exactly. -/
theorem fitPage_aspect (w h iw ih : ℚ) (hiw : iw ≠ 0) (hih : ih ≠ 0) :
    (fitPage w h iw ih).1 * ih = (fitPage w h iw ih).2 * iw := by
  unfold fitPage
  split_ifs with hc
  · simp only
    rw [div_mul_cancel₀ _ hih, mul_comm]
  · simp only
    rw [div_mul_cancel₀ _ hiw, mul_comm]

/-- The fit stage never grows either axis and keeps both positive. -/
theorem fitPage_le_and_pos (w h iw ih : ℚ)
    (hw : 0 < w) (hh : 0 < h) (hiw : 0 < iw) (hih : 0 < ih) :
    (fitPage w h iw ih).1 ≤ w ∧ (fitPage w h iw ih).2 ≤ h ∧
    0 < (fitPage w h iw ih).1 ∧ 0 < (fitPage w h iw ih).2 := by
  unfold fitPage
  split_ifs with hc
  · refine ⟨?_, le_refl h, ?_, hh⟩
    · rw [div_le_iff₀ hih]
      calc h * iw = iw * h := mul_comm _ _
        _ ≤ ih * w := le_of_lt hc
        _ = w * ih := mul_comm _ _
    · positivity
  · refine ⟨le_refl w, ?_, hw, ?_⟩
    · rw [div_le_iff₀ hiw]
      calc w * ih = ih * w := mul_comm _ _
        _ ≤ iw * h := not_lt.mp hc
        _ = h * iw := mul_comm _ _
    · positivity

/-! ## C3: auto-orientation resolution -/

/-- C3: with setting `auto`, the resolved orientation is `landscape` iff
`iw > ih` (so equal dimensions resolve to `portrait`), and the base page box
is swapped exactly when `landscape` is resolved; an explicit
`portrait`/`landscape` setting is kept as-is with the base box unswapped. -/
theorem orientPage_auto_spec (pw ph iw ih : ℚ) :
    ((orientPage Orient.auto pw ph iw ih).2.2 = Orient.landscape ↔ iw > ih) ∧
    ((orientPage Orient.auto pw ph iw ih).2.2 = Orient.portrait ↔ ¬ iw > ih) ∧
    ((orientPage Orient.auto pw ph iw ih).1,
        (orientPage Orient.auto pw ph iw ih).2.1) =
      (if iw > ih then (ph, pw) else (pw, ph)) ∧
    orientPage Orient.portrait pw ph iw ih = (pw, ph, Orient.portrait) ∧
    orientPage Orient.landscape pw ph iw ih = (pw, ph, Orient.landscape) := by
  unfold orientPage
  by_cases hgt : iw > ih <;> simp [hgt]

/-! ## C2: geometry resolver fit guarantees -/

/-- C2: for positive image and base page dimensions, the resolved final page
`(w, h)` has exactly the image's aspect ratio (`w*ih = h*iw`, i.e.
`w/h = iw/ih`), neither axis exceeds the corresponding (possibly swapped)
base page dimension, and the scale factors `(mx, my) = (w/iw, h/ih)` satisfy
`mx*iw = w` and `my*ih = h`. -/
theorem getPageConfiguration_fit_spec (d : Orient) (pw ph iw ih w h : ℚ)
    (o : Orient)
    (hpw : 0 < pw) (hph : 0 < ph) (hiw : 0 < iw) (hih : 0 < ih)
    (hres : GetPageConfiguration d pw ph iw ih = (w, h, o)) :
    w * ih = h * iw ∧
    w ≤ (orientPage d pw ph iw ih).1 ∧
    h ≤ (orientPage d pw ph iw ih).2.1 ∧
    (pageScale w h iw ih).1 * iw = w ∧
    (pageScale w h iw ih).2 * ih = h := by
  obtain ⟨hbw, hbh⟩ := orientPage_pos d pw ph iw ih hpw hph
  have hasp := fitPage_aspect (orientPage d pw ph iw ih).1
    (orientPage d pw ph iw ih).2.1 iw ih (ne_of_gt hiw) (ne_of_gt hih)
  have hle := fitPage_le_and_pos (orientPage d pw ph iw ih).1
    (orientPage d pw ph iw ih).2.1 iw ih hbw hbh hiw hih
  have hw : (fitPage (orientPage d pw ph iw ih).1
      (orientPage d pw ph iw ih).2.1 iw ih).1 = w := by
    have := congrArg (fun t : ℚ × ℚ × Orient => t.1) hres
    simpa [GetPageConfiguration] using this
  have hh : (fitPage (orientPage d pw ph iw ih).1
      (orientPage d pw ph iw ih).2.1 iw ih).2 = h := by
    have := congrArg (fun t : ℚ × ℚ × Orient => t.2.1) hres
    simpa [GetPageConfiguration] using this
  rw [hw, hh] at hasp hle
  refine ⟨hasp, hle.1, hle.2.1, ?_, ?_⟩
  · simp only [pageScale]
    exact div_mul_cancel₀ w (ne_of_gt hiw)
  · simp only [pageScale]
    exact div_mul_cancel₀ h (ne_of_gt hih)

/-- Witness for C2, on the spec's worked example: image 2000×1000,
orientation `auto`, base page 210×297 resolves to a 297×148.5 landscape
page with `mx*iw = 297` and `my*ih = 148.5`. -/
theorem getPageConfiguration_fit_spec_witness :
    GetPageConfiguration Orient.auto 210 297 2000 1000 =
      (297, 297 / 2, Orient.landscape) ∧
    ((297 : ℚ) * 1000 = 297 / 2 * 2000 ∧
      (297 : ℚ) ≤ (orientPage Orient.auto 210 297 2000 1000).1 ∧
      (297 : ℚ) / 2 ≤ (orientPage Orient.auto 210 297 2000 1000).2.1 ∧
      (pageScale 297 (297 / 2) 2000 1000).1 * 2000 = 297 ∧
      (pageScale 297 (297 / 2) 2000 1000).2 * 1000 = 297 / 2) := by
  constructor
  · norm_num [GetPageConfiguration, orientPage, fitPage]
  · exact getPageConfiguration_fit_spec Orient.auto 210 297 2000 1000
      297 (297 / 2) Orient.landscape (by norm_num) (by norm_num)
      (by norm_num) (by norm_num)
      (by norm_num [GetPageConfiguration, orientPage, fitPage])

/-! ## C10: the pixel→page mapping is uniform -/

/-- C10 (implicit): the two scale factors produced by geometry resolution are
always equal, `mx = my`, i.e. the pixel→page mapping is uniform and word
boxes are never distorted relative to the placed image. -/
theorem pageScale_uniform (d : Orient) (pw ph iw ih w h : ℚ) (o : Orient)
    (hiw : 0 < iw) (hih : 0 < ih)
    (hres : GetPageConfiguration d pw ph iw ih = (w, h, o)) :
    (pageScale w h iw ih).1 = (pageScale w h iw ih).2 := by
  have hasp := fitPage_aspect (orientPage d pw ph iw ih).1
    (orientPage d pw ph iw ih).2.1 iw ih (ne_of_gt hiw) (ne_of_gt hih)
  have hw : (fitPage (orientPage d pw ph iw ih).1
      (orientPage d pw ph iw ih).2.1 iw ih).1 = w := by
    have := congrArg (fun t : ℚ × ℚ × Orient => t.1) hres
    simpa [GetPageConfiguration] using this
  have hh : (fitPage (orientPage d pw ph iw ih).1
      (orientPage d pw ph iw ih).2.1 iw ih).2 = h := by
    have := congrArg (fun t : ℚ × ℚ × Orient => t.2.1) hres
    simpa [GetPageConfiguration] using this
  rw [hw, hh] at hasp
  simp only [pageScale]
  rw [div_eq_div_iff (ne_of_gt hiw) (ne_of_gt hih)]
  exact hasp

/-- Witness for C10: on a 2×1 image and a 2×3 base page with `auto`
orientation, both scale factors are produced equal. -/
theorem pageScale_uniform_witness :
    GetPageConfiguration Orient.auto 2 3 2 1 = (3, 3 / 2, Orient.landscape) ∧
    (pageScale 3 (3 / 2) 2 1).1 = (pageScale 3 (3 / 2) 2 1).2 := by
  constructor
  · norm_num [GetPageConfiguration, orientPage, fitPage]
  · exact pageScale_uniform Orient.auto 2 3 2 1 3 (3 / 2) Orient.landscape
      (by norm_num) (by norm_num)
      (by norm_num [GetPageConfiguration, orientPage, fitPage])

/-! ## Text scaling policy (`Document.AddWords`, document.go) -/

/-- The degenerate-input substitution performed inside the `contain` and
`match` branches of `Document.AddWords`: `if sw == 0 { sw = w }`. -/
def effectiveSW (w sw : ℚ) : ℚ := if sw = 0 then w else sw

/-- Per-word scale factor pair `(sx, sy)` computed by the `switch
d.textScaling` statement of `Document.AddWords` (document.go): `sx, sy`
start at `1, 1`; `contain` picks a uniform scale, `match` scales each axis
independently, and in both the substitution `if sw == 0 { sw = w }` is
applied first. -/
def scaleFactors (mode : TextScaling) (w h sw sh : ℚ) : ℚ × ℚ :=
  match mode with
  | TextScaling.NoTextScaling => (1, 1)
  | TextScaling.ContainTextScaling =>
    let sw := effectiveSW w sw
    if sw * h > sh * w then (w / sw, w / sw) else (h / sh, h / sh)
  | TextScaling.MatchTextScaling =>
    let sw := effectiveSW w sw
    (w / sw, h / sh)

/-- Division-guarded variant of `scaleFactors`: identical control flow, but
each division site returns `none` when its divisor is zero instead of
performing the division. -/
def scaleFactorsChecked (mode : TextScaling) (w h sw sh : ℚ) :
    Option (ℚ × ℚ) :=
  match mode with
  | TextScaling.NoTextScaling => some (1, 1)
  | TextScaling.ContainTextScaling =>
    let sw := effectiveSW w sw
    if sw * h > sh * w then
      if sw = 0 then none else some (w / sw, w / sw)
    else
      if sh = 0 then none else some (h / sh, h / sh)
  | TextScaling.MatchTextScaling =>
    let sw := effectiveSW w sw
    if sw = 0 ∨ sh = 0 then none else some (w / sw, h / sh)

/-- The effective glyph width is positive whenever the box width is positive
and the measured string width is non-negative. -/
theorem effectiveSW_pos (w sw : ℚ) (hw : 0 < w) (hsw : 0 ≤ sw) :
    0 < effectiveSW w sw := by
  unfold effectiveSW
  split_ifs with h
  · exact hw
  · exact lt_of_le_of_ne hsw (Ne.symm h)

/-! ## C4: `contain` scaling -/

/-- C4: under the `contain` policy (with positive box, positive line height
and non-negative measured width), the two factors are equal, the common
factor is `w/sw` when `sw*h > sh*w` and `h/sh` otherwise (`sw` the
effective width after degenerate substitution), and the scaled glyph box
never overflows the word box: `sx*sw ≤ w` and `sy*sh ≤ h` exactly. -/
theorem scaleFactors_contain_spec (w h sw sh : ℚ)
    (hw : 0 < w) (hh : 0 < h) (hsw : 0 ≤ sw) (hsh : 0 < sh) :
    (scaleFactors TextScaling.ContainTextScaling w h sw sh).1 =
      (scaleFactors TextScaling.ContainTextScaling w h sw sh).2 ∧
    (scaleFactors TextScaling.ContainTextScaling w h sw sh).1 =
      (if effectiveSW w sw * h > sh * w then w / effectiveSW w sw
        else h / sh) ∧
    (scaleFactors TextScaling.ContainTextScaling w h sw sh).1 *
      effectiveSW w sw ≤ w ∧
    (scaleFactors TextScaling.ContainTextScaling w h sw sh).2 * sh ≤ h := by
  have hs : 0 < effectiveSW w sw := effectiveSW_pos w sw hw hsw
  simp only [scaleFactors]
  split_ifs with hc
  · refine ⟨rfl, rfl, ?_, ?_⟩
    · rw [div_mul_cancel₀ w (ne_of_gt hs)]
    · rw [div_mul_eq_mul_div, div_le_iff₀ hs]
      calc w * sh = sh * w := mul_comm _ _
        _ ≤ effectiveSW w sw * h := le_of_lt hc
        _ = h * effectiveSW w sw := mul_comm _ _
  · refine ⟨rfl, rfl, ?_, ?_⟩
    · rw [div_mul_eq_mul_div, div_le_iff₀ hsh]
      calc h * effectiveSW w sw = effectiveSW w sw * h := mul_comm _ _
        _ ≤ sh * w := not_lt.mp hc
        _ = w * sh := mul_comm _ _
    · rw [div_mul_cancel₀ h (ne_of_gt hsh)]

/-- Witness for C4 at `w = 4, h = 1, sw = 2, sh = 1` (width-limited case:
`2*1 > 1*4` is false, so the factor is `h/sh = 1`). -/
theorem scaleFactors_contain_spec_witness :
    (0 : ℚ) < 4 ∧ (0 : ℚ) < 1 ∧ (0 : ℚ) ≤ 2 ∧ (0 : ℚ) < 1 ∧
    ((scaleFactors TextScaling.ContainTextScaling 4 1 2 1).1 =
        (scaleFactors TextScaling.ContainTextScaling 4 1 2 1).2 ∧
      (scaleFactors TextScaling.ContainTextScaling 4 1 2 1).1 =
        (if effectiveSW 4 2 * 1 > 1 * 4 then 4 / effectiveSW 4 2
          else 1 / 1) ∧
      (scaleFactors TextScaling.ContainTextScaling 4 1 2 1).1 *
        effectiveSW 4 2 ≤ 4 ∧
      (scaleFactors TextScaling.ContainTextScaling 4 1 2 1).2 * 1 ≤ 1) :=
  ⟨by norm_num, by norm_num, by norm_num, by norm_num,
    scaleFactors_contain_spec 4 1 2 1 (by norm_num) (by norm_num)
      (by norm_num) (by norm_num)⟩

/-! ## C5: `match` scaling -/

/-- C5: under the `match` policy, `sx = w/sw` and `sy = h/sh` (with `sw` the
effective width after degenerate substitution), so `sx*sw = w` and
`sy*sh = h` exactly; moreover the two factors can differ (the aspect ratio
is not preserved), e.g. at `w = 4, h = 1, sw = 2, sh = 1`. -/
theorem scaleFactors_match_spec :
    (∀ w h sw sh : ℚ, 0 < w → 0 < h → 0 ≤ sw → 0 < sh →
      (scaleFactors TextScaling.MatchTextScaling w h sw sh).1 =
        w / effectiveSW w sw ∧
      (scaleFactors TextScaling.MatchTextScaling w h sw sh).2 = h / sh ∧
      (scaleFactors TextScaling.MatchTextScaling w h sw sh).1 *
        effectiveSW w sw = w ∧
      (scaleFactors TextScaling.MatchTextScaling w h sw sh).2 * sh = h) ∧
    (scaleFactors TextScaling.MatchTextScaling 4 1 2 1).1 ≠
      (scaleFactors TextScaling.MatchTextScaling 4 1 2 1).2 := by
  constructor
  · intro w h sw sh hw hh hsw hsh
    have hs : 0 < effectiveSW w sw := effectiveSW_pos w sw hw hsw
    exact ⟨rfl, rfl, div_mul_cancel₀ w (ne_of_gt hs),
      div_mul_cancel₀ h (ne_of_gt hsh)⟩
  · norm_num [scaleFactors, effectiveSW]

/-- Witness for C5 at `w = 4, h = 1, sw = 2, sh = 1`: `sx = 2`, `sy = 1`. -/
theorem scaleFactors_match_spec_witness :
    (0 : ℚ) < 4 ∧ (0 : ℚ) < 1 ∧ (0 : ℚ) ≤ 2 ∧ (0 : ℚ) < 1 ∧
    ((scaleFactors TextScaling.MatchTextScaling 4 1 2 1).1 =
        4 / effectiveSW 4 2 ∧
      (scaleFactors TextScaling.MatchTextScaling 4 1 2 1).2 = 1 / 1 ∧
      (scaleFactors TextScaling.MatchTextScaling 4 1 2 1).1 *
        effectiveSW 4 2 = 4 ∧
      (scaleFactors TextScaling.MatchTextScaling 4 1 2 1).2 * 1 = 1) :=
  ⟨by norm_num, by norm_num, by norm_num, by norm_num,
    scaleFactors_match_spec.1 4 1 2 1 (by norm_num) (by norm_num)
      (by norm_num) (by norm_num)⟩

/-! ## C6: no division by zero for `sw = 0` -/

/-- C6: for a word whose measured string width is zero (with positive box
width and line height), no scale-factor computation divides by zero: the
guarded variant agrees with the actual computation under every policy, and
the `off` policy leaves `sx = sy = 1`. -/
theorem scaleFactors_no_div_by_zero (mode : TextScaling) (w h sh : ℚ)
    (hw : 0 < w) (hsh : 0 < sh) :
    scaleFactorsChecked mode w h 0 sh =
      some (scaleFactors mode w h 0 sh) ∧
    scaleFactors TextScaling.NoTextScaling w h 0 sh = (1, 1) := by
  have hs : effectiveSW w 0 ≠ 0 :=
    ne_of_gt (effectiveSW_pos w 0 hw (le_refl 0))
  refine ⟨?_, rfl⟩
  cases mode with
  | NoTextScaling => rfl
  | ContainTextScaling =>
    simp only [scaleFactorsChecked, scaleFactors]
    split_ifs with hc h0 <;> simp_all [ne_of_gt hsh]
  | MatchTextScaling =>
    simp only [scaleFactorsChecked, scaleFactors]
    rw [if_neg]
    push_neg
    exact ⟨hs, ne_of_gt hsh⟩

/-- Witness for C6 at `mode = match, w = 3, h = 2, sh = 1`. -/
theorem scaleFactors_no_div_by_zero_witness :
    (0 : ℚ) < 3 ∧ (0 : ℚ) < 1 ∧
    (scaleFactorsChecked TextScaling.MatchTextScaling 3 2 0 1 =
        some (scaleFactors TextScaling.MatchTextScaling 3 2 0 1) ∧
      scaleFactors TextScaling.NoTextScaling 3 2 0 1 = (1, 1)) :=
  ⟨by norm_num, by norm_num,
    scaleFactors_no_div_by_zero TextScaling.MatchTextScaling 3 2 1
      (by norm_num) (by norm_num)⟩

/-! ## Image format resolution (`Image.Reader`, image.go) -/

/-- Leptonica image-format codes as used by image.go: `IFF_PNG`,
`IFF_JFIF_JPEG`, or any other `IFF_*` code (e.g. TIFF). -/
inductive PixFormat where
  | iffPng
  | iffJfifJpeg
  | iffOther (code : ℕ)
deriving DecidableEq, Repr

/-- `Image.FormatString` (image.go): a Go map lookup over
`{IFF_JFIF_JPEG ↦ "jpg", IFF_PNG ↦ "png"}`, whose zero value for any other
format is the empty string. -/
def FormatString (pf : PixFormat) : String :=
  match pf with
  | PixFormat.iffPng => "png"
  | PixFormat.iffJfifJpeg => "jpg"
  | PixFormat.iffOther _ => ""

/-- Format resolution performed by `Image.Reader` in the final revision of
image.go (the revision defining `ReaderJPEG`/`ReaderPNG`/`ScaleDown` that
`goscan2pdf/main.go` builds against):

```
pixFormat := i.pixFormat
if format == "auto" { pixFormat = C.IFF_PNG }
switch pixFormat {
case C.IFF_PNG:       → ReaderPNG,  "png"
case C.IFF_JFIF_JPEG: → ReaderJPEG, "jpg"
default:              → error "unsupported image format"
}
```

The byte encoding itself is external (leptonica); the returned pair is the
format actually encoded and the format string handed to the document
writer. -/
def readerResolve (pixFormat : PixFormat) (format : String) :
    Except String (PixFormat × String) :=
  let pf := if format = "auto" then PixFormat.iffPng else pixFormat
  match pf with
  | PixFormat.iffPng => Except.ok (PixFormat.iffPng, "png")
  | PixFormat.iffJfifJpeg => Except.ok (PixFormat.iffJfifJpeg, "jpg")
  | PixFormat.iffOther _ => Except.error "unsupported image format"

/-- C7 (divergence of the code from the claim): the code resolves a
`"auto"` request on a native-JPEG image to `"png"` (re-encoding), although
the image's native format string is `"jpg"`; it likewise ignores explicit
requests, resolving `"jpg"` on a native PNG to `"png"` and `"png"` on a
native JPEG to `"jpg"`, and fails on `"png"` over an unsupported native
format instead of producing PNG. -/
theorem readerResolve_divergence :
    readerResolve PixFormat.iffJfifJpeg "auto" =
      Except.ok (PixFormat.iffPng, "png") ∧
    FormatString PixFormat.iffJfifJpeg = "jpg" ∧
    readerResolve PixFormat.iffPng "jpg" =
      Except.ok (PixFormat.iffPng, "png") ∧
    readerResolve PixFormat.iffJfifJpeg "png" =
      Except.ok (PixFormat.iffJfifJpeg, "jpg") ∧
    readerResolve (PixFormat.iffOther 0) "png" =
      Except.error "unsupported image format" :=
  ⟨rfl, rfl, rfl, rfl, rfl⟩

/-! ## Run pipeline and error propagation (`goscan2pdf/main.go`) -/

/-- Per-page collaborator outcomes for one input page of the run: the result
of reading/decoding the image file (`ocrpdf.NewImageFromFile`) and of
composing the page (`doc.AddPage`). Contrast adjustment and recognition
(`tess.Words`) have no error path in the code. -/
structure PageSpec where
  readResult : Except String Unit
  addResult : Except String Unit
deriving Repr

/-- The outcome of processing one page: the stages run in order and the
first failing stage's error is the page's error. -/
def pageOutcome (p : PageSpec) : Except String Unit :=
  match p.readResult with
  | Except.error e => Except.error e
  | Except.ok _ => p.addResult

/-- The page loop of `main` (goscan2pdf/main.go): pages are processed in
order; the first page whose read or composition fails terminates the run
(`os.Exit(1)`) immediately. Returns the indices of the pages that were
processed (in order) and the terminating error, if any. -/
def processPagesAux : ℕ → List PageSpec → List ℕ × Option String
  | _, [] => ([], none)
  | k, p :: ps =>
    match pageOutcome p with
    | Except.error e => ([k], some e)
    | Except.ok _ =>
      let r := processPagesAux (k + 1) ps
      (k :: r.1, r.2)

/-- The whole run: Tesseract initialization (`ocrpdf.NewTess`) happens before
any page is touched and its failure aborts the run; otherwise the page loop
runs. -/
def runMain (tessInit : Except String Unit) (ps : List PageSpec) :
    List ℕ × Option String :=
  match tessInit with
  | Except.error e => ([], some e)
  | Except.ok _ => processPagesAux 0 ps

/-- A failure at page `i` (all earlier pages succeeding) stops the loop
right there: pages `k, …, k+i` are attempted exactly once each, in order,
and the error of page `i` is the run's error. -/
theorem processPagesAux_first_error (ps : List PageSpec) :
    ∀ (k i : ℕ) (e : String) (hlt : i < ps.length),
      (∀ (j : ℕ) (hj : j < i),
        pageOutcome (ps.get ⟨j, lt_trans hj hlt⟩) = Except.ok ()) →
      pageOutcome (ps.get ⟨i, hlt⟩) = Except.error e →
      processPagesAux k ps = (List.range' k (i + 1), some e) := by
  induction ps with
  | nil =>
    intro k i e hlt
    exact absurd hlt (Nat.not_lt_zero i)
  | cons p ps ih =>
    intro k i e hlt hprev hfail
    cases i with
    | zero =>
      simp only [List.get] at hfail
      simp [processPagesAux, hfail, List.range']
    | succ i =>
      have hok : pageOutcome p = Except.ok () := hprev 0 (Nat.succ_pos i)
      have hlt' : i < ps.length := Nat.lt_of_succ_lt_succ hlt
      have hprev' : ∀ (j : ℕ) (hj : j < i),
          pageOutcome (ps.get ⟨j, lt_trans hj hlt'⟩) = Except.ok () := by
        intro j hj
        exact hprev (j + 1) (Nat.succ_lt_succ hj)
      have hfail' : pageOutcome (ps.get ⟨i, hlt'⟩) = Except.error e := hfail
      have := ih (k + 1) i e hlt' hprev' hfail'
      simp [processPagesAux, hok, this, List.range'_succ]

/-- A run in which every stage succeeds processes every page, in order,
with no error. -/
theorem processPagesAux_all_ok (ps : List PageSpec) :
    ∀ k : ℕ, (∀ p ∈ ps, pageOutcome p = Except.ok ()) →
      processPagesAux k ps = (List.range' k ps.length, none) := by
  induction ps with
  | nil => intro k _; simp [processPagesAux, List.range']
  | cons p ps ih =>
    intro k hall
    have hok : pageOutcome p = Except.ok () := hall p (List.mem_cons_self p ps)
    have := ih (k + 1) (fun q hq => hall q (List.mem_cons_of_mem p hq))
    simp [processPagesAux, hok, this, List.range'_succ]

/-- C8: the first error at any stage aborts the entire run with no retry and
no further pages. If engine initialization fails, no page is processed. If
initialization succeeds and page `i` is the first page whose read or
composition fails, then exactly pages `0, …, i` are processed, each once
and in order, the run's error is page `i`'s error, and pages after `i` are
never touched; if nothing fails, every page is processed in order. -/
theorem runMain_first_error_aborts :
    (∀ (e : String) (ps : List PageSpec),
      runMain (Except.error e) ps = ([], some e)) ∧
    (∀ (ps : List PageSpec) (i : ℕ) (e : String) (hlt : i < ps.length),
      (∀ (j : ℕ) (hj : j < i),
        pageOutcome (ps.get ⟨j, lt_trans hj hlt⟩) = Except.ok ()) →
      pageOutcome (ps.get ⟨i, hlt⟩) = Except.error e →
      runMain (Except.ok ()) ps = (List.range (i + 1), some e)) ∧
    (∀ ps : List PageSpec, (∀ p ∈ ps, pageOutcome p = Except.ok ()) →
      runMain (Except.ok ()) ps = (List.range ps.length, none)) := by
  refine ⟨fun e ps => rfl, ?_, ?_⟩
  · intro ps i e hlt hprev hfail
    have := processPagesAux_first_error ps 0 i e hlt hprev hfail
    simpa [runMain, List.range_eq_range'] using this
  · intro ps hall
    have := processPagesAux_all_ok ps 0 hall
    simpa [runMain, List.range_eq_range'] using this

/-- Witness for C8: a run of three pages where the second page's composition
fails processes exactly pages 0 and 1 and stops with that error. -/
theorem runMain_first_error_aborts_witness :
    runMain (Except.ok ())
        [⟨Except.ok (), Except.ok ()⟩,
          ⟨Except.ok (), Except.error "composition failed"⟩,
          ⟨Except.ok (), Except.ok ()⟩] =
      (List.range 2, some "composition failed") := by
  have h := runMain_first_error_aborts.2.1
    [⟨Except.ok (), Except.ok ()⟩,
      ⟨Except.ok (), Except.error "composition failed"⟩,
      ⟨Except.ok (), Except.ok ()⟩]
    1 "composition failed" (by norm_num)
    (by
      intro j hj
      interval_cases j
      · rfl)
    rfl
  exact h

/-- The resolved final page dimensions are positive when all inputs are. -/
theorem getPageConfiguration_pos (d : Orient) (pw ph iw ih w h : ℚ)
    (o : Orient)
    (hpw : 0 < pw) (hph : 0 < ph) (hiw : 0 < iw) (hih : 0 < ih)
    (hres : GetPageConfiguration d pw ph iw ih = (w, h, o)) :
    0 < w ∧ 0 < h := by
  obtain ⟨hbw, hbh⟩ := orientPage_pos d pw ph iw ih hpw hph
  have hle := fitPage_le_and_pos (orientPage d pw ph iw ih).1
    (orientPage d pw ph iw ih).2.1 iw ih hbw hbh hiw hih
  have hw : (fitPage (orientPage d pw ph iw ih).1
      (orientPage d pw ph iw ih).2.1 iw ih).1 = w := by
    have := congrArg (fun t : ℚ × ℚ × Orient => t.1) hres
    simpa [GetPageConfiguration] using this
  have hh : (fitPage (orientPage d pw ph iw ih).1
      (orientPage d pw ph iw ih).2.1 iw ih).2 = h := by
    have := congrArg (fun t : ℚ × ℚ × Orient => t.2.1) hres
    simpa [GetPageConfiguration] using this
  rw [hw, hh] at hle
  exact ⟨hle.2.2.1, hle.2.2.2⟩

/-! ## C9: word boxes stay inside the page-space image footprint -/

/-- C9: a word whose pixel-space box lies within the image bounds
`[0,iw]×[0,ih]` has its page-space box (its coordinates multiplied by the
resolved scale factors `(mx, my)`) inside the page-space image footprint
`[0,w]×[0,h]`. -/
theorem wordPageBox_within_footprint (d : Orient) (pw ph iw ih w h : ℚ)
    (o : Orient) (word : Word)
    (hpw : 0 < pw) (hph : 0 < ph) (hiw : 0 < iw) (hih : 0 < ih)
    (hres : GetPageConfiguration d pw ph iw ih = (w, h, o))
    (hL : 0 ≤ (word.Left : ℚ)) (hR : (word.Right : ℚ) ≤ iw)
    (hT : 0 ≤ (word.Top : ℚ)) (hB : (word.Bottom : ℚ) ≤ ih)
    (hW : word.Width = word.Right - word.Left)
    (hH : word.Height = word.Bottom - word.Top) :
    0 ≤ (wordPageBox word (pageScale w h iw ih).1
        (pageScale w h iw ih).2).1 ∧
    0 ≤ (wordPageBox word (pageScale w h iw ih).1
        (pageScale w h iw ih).2).2.1 ∧
    (wordPageBox word (pageScale w h iw ih).1 (pageScale w h iw ih).2).1 +
      (wordPageBox word (pageScale w h iw ih).1
        (pageScale w h iw ih).2).2.2.1 ≤ w ∧
    (wordPageBox word (pageScale w h iw ih).1 (pageScale w h iw ih).2).2.1 +
      (wordPageBox word (pageScale w h iw ih).1
        (pageScale w h iw ih).2).2.2.2 ≤ h := by
  obtain ⟨hw0, hh0⟩ :=
    getPageConfiguration_pos d pw ph iw ih w h o hpw hph hiw hih hres
  have hWq : (word.Width : ℚ) = (word.Right : ℚ) - (word.Left : ℚ) := by
    rw [hW]; push_cast; ring
  have hHq : (word.Height : ℚ) = (word.Bottom : ℚ) - (word.Top : ℚ) := by
    rw [hH]; push_cast; ring
  simp only [wordPageBox, pageScale]
  refine ⟨mul_nonneg hL (by positivity), mul_nonneg hT (by positivity),
    ?_, ?_⟩
  · have hsum : (word.Left : ℚ) * (w / iw) + (word.Width : ℚ) * (w / iw)
        = (word.Right : ℚ) * (w / iw) := by rw [hWq]; ring
    rw [hsum]
    calc (word.Right : ℚ) * (w / iw) ≤ iw * (w / iw) :=
        mul_le_mul_of_nonneg_right hR (by positivity)
      _ = w := by field_simp
  · have hsum : (word.Top : ℚ) * (h / ih) + (word.Height : ℚ) * (h / ih)
        = (word.Bottom : ℚ) * (h / ih) := by rw [hHq]; ring
    rw [hsum]
    calc (word.Bottom : ℚ) * (h / ih) ≤ ih * (h / ih) :=
        mul_le_mul_of_nonneg_right hB (by positivity)
      _ = h := by field_simp

/-- Witness for C9: on a 2×2 image placed on a 2×2 page (scale factors 1),
the word box `{0,1}×{0,1}` stays inside the `[0,2]×[0,2]` footprint. -/
theorem wordPageBox_within_footprint_witness :
    GetPageConfiguration Orient.portrait 2 2 2 2 =
      (2, 2, Orient.portrait) ∧
    (0 ≤ (wordPageBox ⟨"a", 0, 1, 0, 1, 1, 1⟩ (pageScale 2 2 2 2).1
        (pageScale 2 2 2 2).2).1 ∧
      0 ≤ (wordPageBox ⟨"a", 0, 1, 0, 1, 1, 1⟩ (pageScale 2 2 2 2).1
        (pageScale 2 2 2 2).2).2.1 ∧
      (wordPageBox ⟨"a", 0, 1, 0, 1, 1, 1⟩ (pageScale 2 2 2 2).1
          (pageScale 2 2 2 2).2).1 +
        (wordPageBox ⟨"a", 0, 1, 0, 1, 1, 1⟩ (pageScale 2 2 2 2).1
          (pageScale 2 2 2 2).2).2.2.1 ≤ 2 ∧
      (wordPageBox ⟨"a", 0, 1, 0, 1, 1, 1⟩ (pageScale 2 2 2 2).1
          (pageScale 2 2 2 2).2).2.1 +
        (wordPageBox ⟨"a", 0, 1, 0, 1, 1, 1⟩ (pageScale 2 2 2 2).1
          (pageScale 2 2 2 2).2).2.2.2 ≤ 2) := by
  constructor
  · norm_num [GetPageConfiguration, orientPage, fitPage]
  · exact wordPageBox_within_footprint Orient.portrait 2 2 2 2 2 2
      Orient.portrait ⟨"a", 0, 1, 0, 1, 1, 1⟩ (by norm_num) (by norm_num)
      (by norm_num) (by norm_num)
      (by norm_num [GetPageConfiguration, orientPage, fitPage])
      (by norm_num) (by norm_num) (by norm_num) (by norm_num)
      (by norm_num) (by norm_num)

/-! ## Document-writer event traces and layer ordering (`Document.AddPage`) -/

/-- One call into the gofpdf document writer as issued by `Document.AddPage`
and its helpers (document.go). Payloads mirror the source call arguments;
encoded image bytes are abstracted away. -/
inductive Ev where
  | AddPageFormat (o : Orient) (w h : ℚ)
  | BeginLayer (id : ℕ)
  | EndLayer
  | SetError (msg : String)
  | RegisterImageReader (name fmt : String)
  | SetAlpha (alpha : ℚ) (blend : String)
  | SetXY (x y : ℚ)
  | ImageDraw (name : String) (x y w h : ℚ) (fmt : String)
  | SetDrawColor (r g b : ℕ)
  | RectDraw (x y w h : ℚ) (style : String)
  | TransformBegin
  | TransformScale (sx sy x y : ℚ)
  | SetFillColor (r g b : ℕ)
  | CellDraw (w h : ℚ) (txt : String)
  | TransformEnd
deriving DecidableEq, Repr

/-- `NewDocument` calls `AddLayer("OCR", true)` first and
`AddLayer("Scan", true)` second, so the OCR (text) layer has id 0. -/
def ocrLayerID : ℕ := 0

/-- The scan (image) layer id assigned by the second `AddLayer` call. -/
def scanLayerID : ℕ := 1

/-- An image handle: native encoding plus pixel dimensions, as surfaced by
`Image.Dimensions` (image.go). -/
structure Image where
  pixFormat : PixFormat
  width : ℤ
  height : ℤ

/-- Trace of one iteration of the word loop of `Document.AddWords`
(document.go). `stringWidth` abstracts `pdf.GetStringWidth`, `fontSize` the
height component of `pdf.GetFontSize`; `sw` is mutated by the degenerate
substitution inside the `contain`/`match` branches before the later
`Rect`/`Cell` calls use it. -/
def addWordEvents (debug : Bool) (mode : TextScaling)
    (stringWidth : String → ℚ) (fontSize : ℚ) (word : Word) : List Ev :=
  let x : ℚ := (word.Left : ℚ)
  let y : ℚ := (word.Top : ℚ)
  let w : ℚ := (word.Width : ℚ)
  let h : ℚ := (word.Height : ℚ)
  let sw := stringWidth word.Text
  let sh := fontSize
  let p := scaleFactors mode w h sw sh
  let sw := match mode with
    | TextScaling.NoTextScaling => sw
    | _ => effectiveSW w sw
  (if debug then [Ev.SetDrawColor 255 0 0, Ev.RectDraw x y w h "D"]
    else []) ++
  [Ev.SetXY x y, Ev.TransformBegin,
    Ev.TransformScale (100 * p.1) (100 * p.2) x y] ++
  (if debug then
    [Ev.SetAlpha (1 / 2) "Multiply", Ev.SetFillColor 0 255 0,
      Ev.RectDraw x y sw sh "F", Ev.SetAlpha 1 "Normal"]
    else []) ++
  [Ev.CellDraw sw sh word.Text, Ev.TransformEnd]

/-- `Document.AddWords` (document.go): the word loop. -/
def AddWords (debug : Bool) (mode : TextScaling)
    (stringWidth : String → ℚ) (fontSize : ℚ) : List Word → List Ev
  | [] => []
  | word :: ws =>
    addWordEvents debug mode stringWidth fontSize word ++
      AddWords debug mode stringWidth fontSize ws

/-- `Document.AddImageLayer` (document.go): begin the scan layer, resolve
the image format (an error is recorded via `SetError` and the function
returns early, leaving the layer open), register and draw the image —
semi-transparent in debug mode, the deferred alpha reset firing after
`EndLayer`. -/
def AddImageLayer (debug : Bool) (img : Image) (imagename format : String)
    (w h : ℚ) : List Ev :=
  Ev.BeginLayer scanLayerID ::
    match readerResolve img.pixFormat format with
    | Except.error e => [Ev.SetError e]
    | Except.ok (_, imageFormat) =>
      [Ev.RegisterImageReader imagename imageFormat] ++
      (if debug then [Ev.SetAlpha (1 / 2) "Normal"] else []) ++
      [Ev.SetXY 0 0, Ev.ImageDraw imagename 0 0 w h imageFormat,
        Ev.EndLayer] ++
      (if debug then [Ev.SetAlpha 1 "Normal"] else [])

/-- The `addWordsLayer` closure of `Document.AddPage` (document.go): begin
the OCR layer, scope the pixel→page transform, add the words, close. -/
def wordsLayerEvents (debug : Bool) (mode : TextScaling)
    (stringWidth : String → ℚ) (fontSize mx my : ℚ)
    (words : List Word) : List Ev :=
  [Ev.BeginLayer ocrLayerID, Ev.TransformBegin,
    Ev.TransformScale (100 * mx) (100 * my) 0 0] ++
  AddWords debug mode stringWidth fontSize words ++
  [Ev.TransformEnd, Ev.EndLayer]

/-- `Document.AddPage` (document.go): resolve the page geometry, add the
page, then composite the two layers — text first and image on top in
production, image first (semi-transparent) and text after in debug mode. -/
def AddPage (debug : Bool) (d : Orient) (mode : TextScaling)
    (stringWidth : String → ℚ) (fontSize pw ph : ℚ) (img : Image)
    (imagename format : String) (words : List Word) : List Ev :=
  let iw : ℚ := (img.width : ℚ)
  let ih : ℚ := (img.height : ℚ)
  let g := GetPageConfiguration d pw ph iw ih
  let m := pageScale g.1 g.2.1 iw ih
  let imageEvents := AddImageLayer debug img imagename format g.1 g.2.1
  let wordsEvents :=
    wordsLayerEvents debug mode stringWidth fontSize m.1 m.2 words
  Ev.AddPageFormat g.2.2 g.1 g.2.1 ::
    (if debug then imageEvents ++ wordsEvents
      else wordsEvents ++ imageEvents)

/-- Layer attribution: annotates each event of a trace with the layer open
at the point it is issued (a `BeginLayer`/`EndLayer` event belongs to the
layer it opens/closes). -/
def layerAnn : Option ℕ → List Ev → List (Option ℕ)
  | _, [] => []
  | _, Ev.BeginLayer n :: es => some n :: layerAnn (some n) es
  | cur, Ev.EndLayer :: es => cur :: layerAnn none es
  | cur, _ :: es => cur :: layerAnn cur es

/-- The layer left open after a trace. -/
def layerState : Option ℕ → List Ev → Option ℕ
  | cur, [] => cur
  | _, Ev.BeginLayer n :: es => layerState (some n) es
  | _, Ev.EndLayer :: es => layerState none es
  | cur, _ :: es => layerState cur es

theorem layerAnn_append (xs ys : List Ev) : ∀ cur : Option ℕ,
    layerAnn cur (xs ++ ys) =
      layerAnn cur xs ++ layerAnn (layerState cur xs) ys := by
  induction xs with
  | nil => intro cur; rfl
  | cons e es ih =>
    intro cur
    cases e <;> simp [layerAnn, layerState, ih]

theorem layerState_append (xs ys : List Ev) : ∀ cur : Option ℕ,
    layerState cur (xs ++ ys) = layerState (layerState cur xs) ys := by
  induction xs with
  | nil => intro cur; rfl
  | cons e es ih =>
    intro cur
    cases e <;> simp [layerState, ih]

/-- Attribution of one word's events: no layer event occurs inside, so the
incoming layer annotates every event and the state is unchanged. -/
theorem layerAnn_addWord (debug : Bool) (mode : TextScaling)
    (stringWidth : String → ℚ) (fontSize : ℚ) (word : Word)
    (cur : Option ℕ) :
    layerAnn cur (addWordEvents debug mode stringWidth fontSize word) =
      (addWordEvents debug mode stringWidth fontSize word).map
        (fun _ => cur) ∧
    layerState cur (addWordEvents debug mode stringWidth fontSize word) =
      cur := by
  cases debug <;> simp [addWordEvents, layerAnn, layerState]

/-- Attribution of the whole word loop. -/
theorem layerAnn_addWords (debug : Bool) (mode : TextScaling)
    (stringWidth : String → ℚ) (fontSize : ℚ) (ws : List Word) :
    ∀ cur : Option ℕ,
    layerAnn cur (AddWords debug mode stringWidth fontSize ws) =
      (AddWords debug mode stringWidth fontSize ws).map (fun _ => cur) ∧
    layerState cur (AddWords debug mode stringWidth fontSize ws) = cur := by
  induction ws with
  | nil => intro cur; exact ⟨rfl, rfl⟩
  | cons word ws ih =>
    intro cur
    obtain ⟨ha, hs⟩ :=
      layerAnn_addWord debug mode stringWidth fontSize word cur
    obtain ⟨ha', hs'⟩ := ih cur
    constructor
    · rw [AddWords, layerAnn_append, hs, ha, ha', List.map_append]
    · rw [AddWords, layerState_append, hs, hs']

/-- Attribution of the text-layer segment: every event carries the OCR
layer id, and the segment leaves no layer open. -/
theorem layerAnn_wordsLayer (debug : Bool) (mode : TextScaling)
    (stringWidth : String → ℚ) (fontSize mx my : ℚ) (words : List Word)
    (cur : Option ℕ) :
    (∀ x ∈ layerAnn cur
        (wordsLayerEvents debug mode stringWidth fontSize mx my words),
      x = some ocrLayerID) ∧
    layerState cur
      (wordsLayerEvents debug mode stringWidth fontSize mx my words) =
      none := by
  obtain ⟨ha, hs⟩ :=
    layerAnn_addWords debug mode stringWidth fontSize words
      (some ocrLayerID)
  constructor
  · intro x hx
    simp only [wordsLayerEvents, List.cons_append, List.nil_append] at hx
    simp only [layerAnn, layerAnn_append, hs, ha] at hx
    simp only [List.mem_cons, List.mem_append, List.mem_map] at hx
    rcases hx with rfl | rfl | rfl | ⟨_, _, rfl⟩ | hx
    · rfl
    · rfl
    · rfl
    · rfl
    · simp only [layerAnn, List.mem_cons, List.not_mem_nil, or_false] at hx
      rcases hx with rfl | rfl <;> rfl
  · simp only [wordsLayerEvents, List.cons_append, List.nil_append]
    simp only [layerState, layerState_append, hs]

/-- Attribution of the image-layer segment: every event carries the scan
layer id or (the deferred alpha reset) none; the segment leaves either no
layer open or — after an early error return — the scan layer. -/
theorem layerAnn_imageLayer (debug : Bool) (img : Image)
    (imagename format : String) (w h : ℚ) (cur : Option ℕ) :
    (∀ x ∈ layerAnn cur (AddImageLayer debug img imagename format w h),
      x = some scanLayerID ∨ x = none) ∧
    (layerState cur (AddImageLayer debug img imagename format w h) = none ∨
      layerState cur (AddImageLayer debug img imagename format w h) =
        some scanLayerID) := by
  unfold AddImageLayer
  cases hr : readerResolve img.pixFormat format with
  | error e =>
    constructor
    · intro x hx
      simp only [layerAnn, List.mem_cons, List.not_mem_nil, or_false] at hx
      rcases hx with rfl | rfl
      · exact Or.inl rfl
      · exact Or.inl rfl
    · right
      rfl
  | ok pr =>
    obtain ⟨pf, fstr⟩ := pr
    constructor
    · intro x hx
      cases debug <;>
        simp only [layerAnn, List.cons_append, List.nil_append,
          List.append_nil, if_true, if_false, Bool.false_eq_true,
          List.mem_cons, List.not_mem_nil, or_false] at hx <;>
        rcases hx with rfl | hx
      · exact Or.inl rfl
      · rcases hx with rfl | rfl | rfl | rfl
        · exact Or.inl rfl
        · exact Or.inl rfl
        · exact Or.inl rfl
        · exact Or.inl rfl
      · exact Or.inl rfl
      · rcases hx with rfl | rfl | rfl | rfl | rfl | rfl
        · exact Or.inl rfl
        · exact Or.inl rfl
        · exact Or.inl rfl
        · exact Or.inl rfl
        · exact Or.inl rfl
        · exact Or.inr rfl
    · left
      cases debug <;> rfl

/-- If the first block of a concatenation contains no `b` and the second no
`a`, any occurrence of `a` is at a strictly smaller index than any
occurrence of `b`. -/
theorem append_index_lt {α : Type} {l1 l2 : List α} {a b : α}
    (h1 : ∀ x ∈ l1, x ≠ b) (h2 : ∀ x ∈ l2, x ≠ a)
    {i j : ℕ} (hi : (l1 ++ l2)[i]? = some a)
    (hj : (l1 ++ l2)[j]? = some b) : i < j := by
  have hjge : l1.length ≤ j := by
    by_contra hlt
    push_neg at hlt
    rw [List.getElem?_append_left hlt] at hj
    obtain ⟨hb, he⟩ := List.getElem?_eq_some_iff.mp hj
    exact h1 b (he ▸ List.getElem_mem hb) rfl
  have hilt : i < l1.length := by
    by_contra hge
    push_neg at hge
    rw [List.getElem?_append_right hge] at hi
    obtain ⟨ha, he⟩ := List.getElem?_eq_some_iff.mp hi
    exact h2 a (he ▸ List.getElem_mem ha) rfl
  exact lt_of_lt_of_le hilt hjge

/-! ## C1: layer ordering per page -/

/-- C1: in the trace of events emitted by `Document.AddPage` for one page,
with `debug = false` every event issued inside the text ("OCR") layer comes
strictly before every event issued inside the image ("Scan") layer; with
`debug = true` the image layer (drawn semi-transparent) comes first and
the text layer after. -/
theorem addPage_layer_order (debug : Bool) (d : Orient)
    (mode : TextScaling) (stringWidth : String → ℚ) (fontSize pw ph : ℚ)
    (img : Image) (imagename format : String) (words : List Word)
    (i j : ℕ)
    (hi : (layerAnn none (AddPage debug d mode stringWidth fontSize pw ph
        img imagename format words))[i]? = some (some ocrLayerID))
    (hj : (layerAnn none (AddPage debug d mode stringWidth fontSize pw ph
        img imagename format words))[j]? = some (some scanLayerID)) :
    if debug then j < i else i < j := by
  cases debug
  · show i < j
    set g := GetPageConfiguration d pw ph (img.width : ℚ)
      (img.height : ℚ) with hg
    set m := pageScale g.1 g.2.1 (img.width : ℚ) (img.height : ℚ) with hm
    set Wd := wordsLayerEvents false mode stringWidth fontSize m.1 m.2
      words with hWd
    set I := AddImageLayer false img imagename format g.1 g.2.1 with hI
    have e1 : AddPage false d mode stringWidth fontSize pw ph img
        imagename format words =
        Ev.AddPageFormat g.2.2 g.1 g.2.1 :: (Wd ++ I) := rfl
    have e2 : layerAnn none
        (Ev.AddPageFormat g.2.2 g.1 g.2.1 :: (Wd ++ I)) =
        none :: layerAnn none (Wd ++ I) := rfl
    rw [e1, e2, layerAnn_append] at hi hj
    obtain ⟨hWmem, hWst⟩ := layerAnn_wordsLayer false mode stringWidth
      fontSize m.1 m.2 words none
    rw [← hWd] at hWmem hWst
    obtain ⟨hImem, _⟩ :=
      layerAnn_imageLayer false img imagename format g.1 g.2.1 none
    rw [← hI] at hImem
    rw [hWst, ← List.cons_append] at hi hj
    refine append_index_lt ?_ ?_ hi hj
    · intro x hx
      rcases List.mem_cons.mp hx with rfl | hx
      · simp
      · rw [hWmem x hx]
        simp [ocrLayerID, scanLayerID]
    · intro x hx
      rcases hImem x hx with rfl | rfl
      · simp [ocrLayerID, scanLayerID]
      · simp
  · show j < i
    set g := GetPageConfiguration d pw ph (img.width : ℚ)
      (img.height : ℚ) with hg
    set m := pageScale g.1 g.2.1 (img.width : ℚ) (img.height : ℚ) with hm
    set Wd := wordsLayerEvents true mode stringWidth fontSize m.1 m.2
      words with hWd
    set I := AddImageLayer true img imagename format g.1 g.2.1 with hI
    have e1 : AddPage true d mode stringWidth fontSize pw ph img
        imagename format words =
        Ev.AddPageFormat g.2.2 g.1 g.2.1 :: (I ++ Wd) := rfl
    have e2 : layerAnn none
        (Ev.AddPageFormat g.2.2 g.1 g.2.1 :: (I ++ Wd)) =
        none :: layerAnn none (I ++ Wd) := rfl
    rw [e1, e2, layerAnn_append] at hi hj
    obtain ⟨hImem, _⟩ :=
      layerAnn_imageLayer true img imagename format g.1 g.2.1 none
    rw [← hI] at hImem
    obtain ⟨hWmem, _⟩ := layerAnn_wordsLayer true mode stringWidth
      fontSize m.1 m.2 words (layerState none I)
    rw [← hWd] at hWmem
    rw [← List.cons_append] at hi hj
    refine append_index_lt ?_ ?_ hj hi
    · intro x hx
      rcases List.mem_cons.mp hx with rfl | hx
      · simp
      · rcases hImem x hx with rfl | rfl
        · simp [ocrLayerID, scanLayerID]
        · simp
    · intro x hx
      rw [hWmem x hx]
      simp [ocrLayerID, scanLayerID]

/-- Witness for C1: a production-mode (`debug = false`) page with one word
on a 1×1 PNG image; the `BeginLayer` of the OCR layer sits at index 1 and
the `BeginLayer` of the scan layer at index 11, and the theorem places the
former strictly before the latter. -/
theorem addPage_layer_order_witness :
    (layerAnn none (AddPage false Orient.portrait TextScaling.NoTextScaling
        (fun _ => 1) 1 1 1 ⟨PixFormat.iffPng, 1, 1⟩ "p" "auto"
        [⟨"a", 0, 1, 0, 1, 1, 1⟩]))[1]? = some (some ocrLayerID) ∧
    (layerAnn none (AddPage false Orient.portrait TextScaling.NoTextScaling
        (fun _ => 1) 1 1 1 ⟨PixFormat.iffPng, 1, 1⟩ "p" "auto"
        [⟨"a", 0, 1, 0, 1, 1, 1⟩]))[11]? = some (some scanLayerID) ∧
    1 < 11 := by
  have h1 : (layerAnn none (AddPage false Orient.portrait
      TextScaling.NoTextScaling (fun _ => 1) 1 1 1
      ⟨PixFormat.iffPng, 1, 1⟩ "p" "auto"
      [⟨"a", 0, 1, 0, 1, 1, 1⟩]))[1]? = some (some ocrLayerID) := by rfl
  have h2 : (layerAnn none (AddPage false Orient.portrait
      TextScaling.NoTextScaling (fun _ => 1) 1 1 1
      ⟨PixFormat.iffPng, 1, 1⟩ "p" "auto"
      [⟨"a", 0, 1, 0, 1, 1, 1⟩]))[11]? = some (some scanLayerID) := by rfl
  exact ⟨h1, h2, addPage_layer_order false Orient.portrait
    TextScaling.NoTextScaling (fun _ => 1) 1 1 1
    ⟨PixFormat.iffPng, 1, 1⟩ "p" "auto" [⟨"a", 0, 1, 0, 1, 1, 1⟩]
    1 11 h1 h2⟩

end Ocrpdf
